import Mathlib

/-!
Verification of the backend core of The-Genius (fantasy-sports advice engine).

This file shallowly embeds the pure logic of the following backend services
and proves/refutes the frozen behavioural claims about them:

* `app/services/web_search_discipline.py` — rule-based web-search decisions;
* `app/services/schema_validator.py`      — schema-first response validation
  and repair of the accumulated streamed text;
* `app/services/openai_client.py` (`get_streaming_response`) — the streaming
  state machine turning upstream Responses-API events into downstream events;
* `app/services/confidence_scoring.py`    — confidence log, outcome feedback
  and Brier-score calibration.

Python `str` values are modelled as `String`/`List Char` (ASCII-faithful:
`str.lower` and the regex character classes are modelled on the ASCII range,
which covers every input treated here).  JSON numbers are modelled as `ℚ`.
Python dicts are association lists with first-match lookup and
insertion-order preserving update, exactly mirroring CPython semantics for
the unique-key dictionaries produced by `json.loads`.
-/

/- Batteries marks the arithmetic on `Rat` irreducible; computations on
finalized records below are settled by evaluation, so restore
reducibility for this file. -/
attribute [local semireducible] Rat.add Rat.mul Rat.inv Rat.sub Rat.ofScientific

/-! ## Basic character and list utilities -/

/-- ASCII decimal digit test (regex `\d` restricted to ASCII). -/
def isDigitChar (c : Char) : Bool :=
  '0' ≤ c && c ≤ '9'

/-- ASCII lower-case letter test (regex `[a-z]`). -/
def isLowerChar (c : Char) : Bool :=
  'a' ≤ c && c ≤ 'z'

/-- ASCII upper-case letter test (regex `[A-Z]`). -/
def isUpperChar (c : Char) : Bool :=
  'A' ≤ c && c ≤ 'Z'

/-- Regex word-character test `\w` (ASCII range): letters, digits, underscore. -/
def isWordChar (c : Char) : Bool :=
  isLowerChar c || isUpperChar c || isDigitChar c || c == '_'

/-- ASCII case folding, modelling Python `str.lower` on ASCII text. -/
def asciiLower (c : Char) : Char :=
  if 'A' ≤ c && c ≤ 'Z' then Char.ofNat (c.toNat + 32) else c

/-- Lower-case an entire character list (Python `s.lower()`). -/
def lowerList (s : List Char) : List Char :=
  s.map asciiLower

/-- Python whitespace characters stripped by `str.strip()`. -/
def isPyWhitespace : Char → Bool
  | ' ' | '\t' | '\n' | '\r' | '\x0b' | '\x0c' => true
  | _ => false

/-- Python `str.strip()`: remove leading and trailing whitespace. -/
def pyStrip (s : List Char) : List Char :=
  ((s.dropWhile isPyWhitespace).reverse.dropWhile isPyWhitespace).reverse

/-- Does the list start with the given needle (Python `s.startswith(t)`)? -/
def startsWithL : List Char → List Char → Bool
  | _, [] => true
  | [], _ :: _ => false
  | a :: hay, b :: needle => a == b && startsWithL hay needle

/-- Python substring containment `needle in hay`. -/
def pyContains (hay needle : List Char) : Bool :=
  match hay with
  | [] => needle.isEmpty
  | _ :: rest => startsWithL hay needle || pyContains rest needle

/-- Character at index `i`, if in range. -/
def charAt (s : List Char) (i : Nat) : Option Char :=
  s.get? i

/-- Is the character at index `i` a word character? Out of range counts as no. -/
def wordAt (s : List Char) (i : Nat) : Bool :=
  match charAt s i with
  | some c => isWordChar c
  | none => false

/-- Regex word boundary `\b` at position `p` (between indices `p-1` and `p`):
the word-ness of the two neighbouring positions differs, with positions
outside the string counting as non-word. -/
def boundaryPos (s : List Char) (p : Nat) : Bool :=
  (if p = 0 then false else wordAt s (p - 1)) != wordAt s p

/-- Does the literal `w` occur at index `i` of `s`? -/
def litAt (s : List Char) (i : Nat) (w : List Char) : Bool :=
  startsWithL (s.drop i) w

/-- Is the character at index `i` an ASCII digit? -/
def isDigitAt (s : List Char) (i : Nat) : Bool :=
  match charAt s i with
  | some c => isDigitChar c
  | none => false

/-- Are the `n` characters starting at index `i` all ASCII digits? -/
def digitsAt (s : List Char) (i n : Nat) : Bool :=
  (List.range n).all fun k => isDigitAt s (i + k)

/-- Are the `n` characters starting at index `i` all lower-case letters? -/
def lowerRunAt (s : List Char) (i n : Nat) : Bool :=
  (List.range n).all fun k =>
    match charAt s (i + k) with
    | some c => isLowerChar c
    | none => false

/-- Does the position-matcher `m` succeed at some position of `s`?
This models `re.search`: try every start index. -/
def searchAny (s : List Char) (m : List Char → Nat → Bool) : Bool :=
  (List.range (s.length + 1)).any (m s)

/-! ## JSON values

JSON documents are modelled with rational numbers for the numeric type.
Objects are association lists preserving insertion order; `json.loads`
produces unique keys (duplicates keep the last value in place), which
`setKey` mirrors. -/

inductive Json where
  | null : Json
  | bool (b : Bool) : Json
  | num (q : ℚ) : Json
  | str (s : String) : Json
  | arr (xs : List Json) : Json
  | obj (fs : List (String × Json)) : Json

/-- First-match key lookup in an object field list (CPython dict lookup). -/
def getKey (fs : List (String × Json)) (k : String) : Option Json :=
  match fs with
  | [] => none
  | (k2, v) :: rest => if k2 = k then some v else getKey rest k

/-- Python `k in d`. -/
def hasKey (fs : List (String × Json)) (k : String) : Bool :=
  (getKey fs k).isSome

/-- Python `d[k] = v`: replace in place if the key exists, else append,
preserving insertion order. -/
def setKey (fs : List (String × Json)) (k : String) (v : Json) :
    List (String × Json) :=
  if hasKey fs k then
    fs.map fun p => if p.1 = k then (p.1, v) else p
  else
    fs ++ [(k, v)]

/-- Python truthiness of a JSON-decoded value. -/
def pyTruthy : Json → Bool
  | .null => false
  | .bool b => b
  | .num q => q ≠ 0
  | .str s => s ≠ ""
  | .arr xs => !xs.isEmpty
  | .obj fs => !fs.isEmpty

/-! ## A strict JSON reader, modelling `json.loads`

Finite numbers only (the non-standard `NaN`/`Infinity` literals CPython
accepts are not modelled; no input in this development uses them).
`\uXXXX` escapes are decoded without surrogate-pair combination. -/

/-- JSON insignificant whitespace. -/
def isJsonWs : Char → Bool
  | ' ' | '\t' | '\n' | '\r' => true
  | _ => false

/-- Skip JSON whitespace. -/
def skipWs (s : List Char) : List Char :=
  s.dropWhile isJsonWs

/-- Value of a hexadecimal digit, via its code point. -/
def hexVal (c : Char) : Option Nat :=
  let n := c.toNat
  if 48 ≤ n && n ≤ 57 then some (n - 48)
  else if 97 ≤ n && n ≤ 102 then some (n - 87)
  else if 65 ≤ n && n ≤ 70 then some (n - 55)
  else none

/-- Translation table for the single-character JSON string escapes. -/
def jsonEscapes : List (Char × Char) :=
  [('"', '"'), ('\\', '\\'), ('/', '/'), ('n', '\n'), ('t', '\t'),
   ('r', '\r'), ('b', '\x08'), ('f', '\x0c')]

/-- Body of a JSON string after the opening quote.  Returns the decoded
string and the rest of the input after the closing quote. -/
def parseStringBody : List Char → List Char → Option (String × List Char)
  | [], _ => none
  | '"' :: rest, acc => some (String.mk acc.reverse, rest)
  | '\\' :: 'u' :: h1 :: h2 :: h3 :: h4 :: rest, acc =>
    match [h1, h2, h3, h4].mapM hexVal with
    | some ds =>
      parseStringBody rest
        (Char.ofNat (ds.foldl (fun acc2 d => acc2 * 16 + d) 0) :: acc)
    | none => none
  | '\\' :: e :: rest, acc =>
    match jsonEscapes.lookup e with
    | some decoded => parseStringBody rest (decoded :: acc)
    | none => none
  | c :: rest, acc =>
    if c.toNat < 32 then none else parseStringBody rest (c :: acc)

/-- Fold a digit list into a natural number. -/
def digitsToNat (ds : List Char) : Nat :=
  ds.foldl (fun acc c => acc * 10 + (c.toNat - '0'.toNat)) 0

/-- JSON number starting at the head of the input (strict grammar:
optional minus, integer part without leading zeros, optional fraction,
optional exponent). Returns the value and the rest of the input. -/
def parseNumber (cs : List Char) : Option (ℚ × List Char) :=
  let (neg, cs1) :=
    match cs with
    | '-' :: rest => (true, rest)
    | _ => (false, cs)
  let intDigits := cs1.takeWhile isDigitChar
  let cs2 := cs1.drop intDigits.length
  if intDigits.isEmpty then none
  else if intDigits.length > 1 && intDigits.headD '0' == '0' then none
  else
    let ipart : ℚ := (digitsToNat intDigits : ℚ)
    let (fracVal, cs3) :=
      match cs2 with
      | '.' :: rest =>
        let fd := rest.takeWhile isDigitChar
        if fd.isEmpty then (none, cs2)
        else (some ((digitsToNat fd : ℚ) / (10 : ℚ) ^ fd.length), rest.drop fd.length)
      | _ => (some 0, cs2)
    match fracVal with
    | none => none
    | some fv =>
      let base : ℚ := ipart + fv
      let (expVal, cs4) :=
        match cs3 with
        | 'e' :: rest => parseExpTail rest
        | 'E' :: rest => parseExpTail rest
        | _ => (some (0 : ℤ), cs3)
      match expVal with
      | none => none
      | some e =>
        let v : ℚ := base * (10 : ℚ) ^ e
        some (if neg then -v else v, cs4)
where
  /-- Exponent part after `e`/`E`: optional sign then digits. -/
  parseExpTail (rest : List Char) : Option ℤ × List Char :=
    let (esign, r1) :=
      match rest with
      | '+' :: r => ((1 : ℤ), r)
      | '-' :: r => ((-1 : ℤ), r)
      | _ => ((1 : ℤ), rest)
    let ed := r1.takeWhile isDigitChar
    if ed.isEmpty then (none, rest)
    else (some (esign * (digitsToNat ed : ℤ)), r1.drop ed.length)

mutual

/-- Parse one JSON value at the head of the input (no leading whitespace).
`fuel` bounds the recursion depth; `jsonParse` supplies enough fuel for any
input of the given length. -/
def parseValue : Nat → List Char → Option (Json × List Char)
  | 0, _ => none
  | _ + 1, [] => none
  | fuel + 1, c :: rest =>
    if c == 'n' then
      if startsWithL rest ['u', 'l', 'l'] then some (.null, rest.drop 3) else none
    else if c == 't' then
      if startsWithL rest ['r', 'u', 'e'] then some (.bool true, rest.drop 3) else none
    else if c == 'f' then
      if startsWithL rest ['a', 'l', 's', 'e'] then some (.bool false, rest.drop 4) else none
    else if c == '"' then
      match parseStringBody rest [] with
      | some (s, rest2) => some (.str s, rest2)
      | none => none
    else if c == '[' then
      match skipWs rest with
      | ']' :: rest2 => some (.arr [], rest2)
      | rest2 => parseArrayItems fuel rest2 []
    else if c == '\x7b' then
      match skipWs rest with
      | '\x7d' :: rest2 => some (.obj [], rest2)
      | rest2 => parseObjItems fuel rest2 []
    else
      match parseNumber (c :: rest) with
      | some (q, rest2) => some (.num q, rest2)
      | none => none

/-- Comma-separated array items up to the closing bracket. -/
def parseArrayItems : Nat → List Char → List Json → Option (Json × List Char)
  | 0, _, _ => none
  | fuel + 1, cs, acc =>
    match parseValue fuel cs with
    | none => none
    | some (v, rest) =>
      match skipWs rest with
      | ',' :: rest2 => parseArrayItems fuel (skipWs rest2) (v :: acc)
      | ']' :: rest2 => some (.arr (v :: acc).reverse, rest2)
      | _ => none

/-- Comma-separated `"key": value` object members up to the closing brace.
Duplicate keys keep the last value (CPython `json.loads`). -/
def parseObjItems : Nat → List Char → List (String × Json) →
    Option (Json × List Char)
  | 0, _, _ => none
  | fuel + 1, cs, acc =>
    match cs with
    | '"' :: rest =>
      match parseStringBody rest [] with
      | none => none
      | some (k, rest2) =>
        match skipWs rest2 with
        | ':' :: rest3 =>
          match parseValue fuel (skipWs rest3) with
          | none => none
          | some (v, rest4) =>
            match skipWs rest4 with
            | ',' :: rest5 => parseObjItems fuel (skipWs rest5) (setKey acc k v)
            | '\x7d' :: rest5 => some (.obj (setKey acc k v), rest5)
            | _ => none
        | _ => none
    | _ => none

end

/-- Python `json.loads`: parse a complete JSON document, rejecting trailing
garbage. -/
def jsonParse (s : String) : Option Json :=
  match parseValue (2 * s.length + 4) (skipWs s.toList) with
  | some (v, rest) => if (skipWs rest).isEmpty then some v else none
  | none => none

/-! ## Web Search Discipline (`app/services/web_search_discipline.py`)

The decision engine is pure: keyword/regex tests over the query plus an
optional user override.  The Python keyword sets are kept in source order
(set iteration order only affects the order of the cited keywords in the
reasoning string). -/

inductive SearchDecision where
  | MANDATORY : SearchDecision
  | SKIP : SearchDecision
  | BYPASS : SearchDecision
deriving DecidableEq, Repr

/-- `self.time_sensitive_keywords`. -/
def timeSensitiveKeywords : List String :=
  ["today", "tonight", "now", "current", "latest", "recent", "breaking",
   "this week", "this weekend", "upcoming", "tomorrow",
   "injury", "injured", "hurt", "questionable", "doubtful", "out",
   "gtd", "game time decision", "dnp", "limited", "full practice",
   "active", "inactive", "ruled out", "cleared",
   "trending", "hot", "cold", "slump", "streak", "surge", "momentum",
   "last game", "last week", "past few", "since",
   "weather", "wind", "rain", "snow", "temperature", "dome", "outdoor",
   "starting", "bench", "snap count", "targets", "carries", "usage",
   "role change", "promoted", "demoted", "depth chart",
   "news", "update", "report", "announced", "confirmed", "suspended",
   "trade", "waiver", "pickup", "drop", "add"]

/-- `self.bypass_keywords`. -/
def bypassKeywords : List String :=
  ["/nosrch", "/nosearch", "/skip-search", "--no-web-search"]

/-- Fantasy-sports indicator substrings in `_has_recently_active_entities`. -/
def fantasyIndicators : List String :=
  ["start", "sit", "lineup", "roster", "waiver", "trade", "pickup", "drop",
   "matchup", "projection", "ranking", "advice", "play", "avoid",
   "dfs", "daily fantasy", "prop bet", "anytime td", "over/under",
   "performing", "lately", "trends", "value", "target"]

/-- Historical indicator substrings in `_is_historical_query`. -/
def historicalIndicators : List String :=
  ["who won", "mvp in", "biography", "history of", "career statistics",
   "what are the general rules", "how does the playoff system work",
   "rules for", "what if scenario", "hypothetical", "in 2019", "in 2020",
   "last season", "career stats", "all time", "hall of fame"]

/-- Regex `\b\d{4}-\d{2}-\d{2}\b` at position `i`. -/
def matchIsoDate (s : List Char) (i : Nat) : Bool :=
  boundaryPos s i && digitsAt s i 4 && (charAt s (i + 4) == some '-') &&
  digitsAt s (i + 5) 2 && (charAt s (i + 7) == some '-') &&
  digitsAt s (i + 8) 2 && boundaryPos s (i + 10)

/-- Regex `\b\d{1,2}/\d{1,2}\b` at position `i`. -/
def matchSlashDate (s : List Char) (i : Nat) : Bool :=
  let tail2 := fun p =>
    isDigitAt s p &&
    (boundaryPos s (p + 1) || (isDigitAt s (p + 1) && boundaryPos s (p + 2)))
  boundaryPos s i && isDigitAt s i &&
  ((charAt s (i + 1) == some '/' && tail2 (i + 2)) ||
   (isDigitAt s (i + 1) && charAt s (i + 2) == some '/' && tail2 (i + 3)))

/-- Weekday names in the `this ...`/`next ...` date patterns. -/
def weekdayNames : List String :=
  ["sunday", "monday", "tuesday", "wednesday", "thursday", "friday", "saturday"]

/-- Regex `\bthis (sunday|...|saturday)\b` at position `i`. -/
def matchThisDay (s : List Char) (i : Nat) : Bool :=
  boundaryPos s i && litAt s i "this ".toList &&
  weekdayNames.any fun d =>
    litAt s (i + 5) d.toList && boundaryPos s (i + 5 + d.length)

/-- Regex `\bnext (week|game|sunday|...|saturday)\b` at position `i`. -/
def matchNextThing (s : List Char) (i : Nat) : Bool :=
  boundaryPos s i && litAt s i "next ".toList &&
  ("week" :: "game" :: weekdayNames).any fun d =>
    litAt s (i + 5) d.toList && boundaryPos s (i + 5 + d.length)

/-- Regex `\d+\b` starting exactly at position `p` (at least one digit,
with a word boundary after the digit run). -/
def digitRunBnd (s : List Char) (p : Nat) : Bool :=
  (List.range (s.length + 1)).any fun k =>
    decide (1 ≤ k) && digitsAt s p k && boundaryPos s (p + k)

/-- Regex `\b(week \d+|wk \d+)\b` at position `i`. -/
def matchWeekNum (s : List Char) (i : Nat) : Bool :=
  boundaryPos s i &&
  ((litAt s i "week ".toList && digitRunBnd s (i + 5)) ||
   (litAt s i "wk ".toList && digitRunBnd s (i + 3)))

/-- Regex `\b(19|20)\d{2}\b` at position `i` (year with word boundaries). -/
def matchYearBnd (s : List Char) (i : Nat) : Bool :=
  boundaryPos s i && (litAt s i "19".toList || litAt s i "20".toList) &&
  isDigitAt s (i + 2) && isDigitAt s (i + 3) && boundaryPos s (i + 4)

/-- Regex `\blast (year|season)\b` at position `i`. -/
def matchLastYearSeason (s : List Char) (i : Nat) : Bool :=
  boundaryPos s i && litAt s i "last ".toList &&
  (["year", "season"].any fun w =>
    litAt s (i + 5) w.toList && boundaryPos s (i + 5 + w.length))

/-- Regex `\bcareer\b` at position `i`. -/
def matchCareer (s : List Char) (i : Nat) : Bool :=
  boundaryPos s i && litAt s i "career".toList && boundaryPos s (i + 6)

/-- Regex `\ball[- ]time\b` at position `i`. -/
def matchAllTime (s : List Char) (i : Nat) : Bool :=
  boundaryPos s i && litAt s i "all".toList &&
  (charAt s (i + 3) == some '-' || charAt s (i + 3) == some ' ') &&
  litAt s (i + 4) "time".toList && boundaryPos s (i + 8)

/-- `WebSearchDiscipline._is_historical_query`. -/
def isHistoricalQuery (q : List Char) : Bool :=
  let ql := lowerList q
  historicalIndicators.any (fun w => pyContains ql w.toList) ||
  searchAny ql matchYearBnd ||
  searchAny ql matchLastYearSeason ||
  searchAny ql matchCareer ||
  searchAny ql matchAllTime

/-- `WebSearchDiscipline._is_time_sensitive_query`. -/
def isTimeSensitiveQuery (q : List Char) : Bool :=
  let ql := lowerList q
  timeSensitiveKeywords.any (fun w => pyContains ql w.toList) ||
  searchAny ql matchIsoDate ||
  searchAny ql matchSlashDate ||
  searchAny ql matchThisDay ||
  searchAny ql matchNextThing ||
  searchAny ql matchWeekNum

/-- Regex `\b[A-Z][a-z]+ [A-Z][a-z]+\b` at position `i` (Title Case player
name heuristic, searched on the raw query). -/
def matchTitleCasePair (s : List Char) (i : Nat) : Bool :=
  boundaryPos s i &&
  (match charAt s i with | some c => isUpperChar c | none => false) &&
  ((List.range (s.length + 1)).any fun m =>
    decide (1 ≤ m) && lowerRunAt s (i + 1) m &&
    (charAt s (i + 1 + m) == some ' ') &&
    (match charAt s (i + 2 + m) with | some c => isUpperChar c | none => false) &&
    ((List.range (s.length + 1)).any fun n =>
      decide (1 ≤ n) && lowerRunAt s (i + 3 + m) n &&
      boundaryPos s (i + 3 + m + n)))

/-- Regex `\b(start|sit|play|bench) [A-Z]` at position `i` (raw query). -/
def matchActionName (s : List Char) (i : Nat) : Bool :=
  boundaryPos s i &&
  (["start", "sit", "play", "bench"].any fun w =>
    litAt s i w.toList && (charAt s (i + w.length) == some ' ') &&
    (match charAt s (i + w.length + 1) with
     | some c => isUpperChar c
     | none => false))

/-- Regex `\b[A-Z][a-z]+( Jr\.?| Sr\.?| III)?\b vs\b` at position `i`
(raw query). -/
def matchNameVs (s : List Char) (i : Nat) : Bool :=
  boundaryPos s i &&
  (match charAt s i with | some c => isUpperChar c | none => false) &&
  ((List.range (s.length + 1)).any fun m =>
    decide (1 ≤ m) && lowerRunAt s (i + 1) m &&
    (let p := i + 1 + m
     [" Jr.", " Jr", " Sr.", " Sr", " III", ""].any fun suf =>
       litAt s p suf.toList &&
       boundaryPos s (p + suf.length) &&
       litAt s (p + suf.length) " vs".toList &&
       boundaryPos s (p + suf.length + 3)))

/-- Regex `\b(QB|RB|WR|TE|K|DST|DEF)\b` at position `i`.  The source
searches this on the lower-cased query, where the upper-case literals can
never occur; it is kept verbatim. -/
def matchPosAbbrev (s : List Char) (i : Nat) : Bool :=
  ["QB", "RB", "WR", "TE", "K", "DST", "DEF"].any fun w =>
    boundaryPos s i && litAt s i w.toList && boundaryPos s (i + w.length)

/-- Regex `\b(quarterback|running back|wide receiver|tight end|kicker|defense)\b`
at position `i`. -/
def matchPosWord (s : List Char) (i : Nat) : Bool :=
  ["quarterback", "running back", "wide receiver", "tight end", "kicker",
   "defense"].any fun w =>
    boundaryPos s i && litAt s i w.toList && boundaryPos s (i + w.length)

/-- `WebSearchDiscipline._has_recently_active_entities`.  The
`conversation_context` parameter is accepted and, as in the source,
never read. -/
def hasRecentlyActiveEntities (q : List Char) (_ctx : Option (List Json)) :
    Bool :=
  let ql := lowerList q
  fantasyIndicators.any (fun w => pyContains ql w.toList) ||
  searchAny q matchTitleCasePair ||
  searchAny q matchActionName ||
  searchAny q matchNameVs ||
  searchAny ql matchPosAbbrev ||
  searchAny ql matchPosWord

/-- `WebSearchDiscipline._get_time_sensitive_reasons`: the first three
matched keywords, comma-joined. -/
def getTimeSensitiveReasons (q : List Char) : String :=
  let ql := lowerList q
  String.intercalate ", "
    ((timeSensitiveKeywords.filter fun w => pyContains ql w.toList).take 3)

/-- `WebSearchDiscipline._get_active_entity_reasons`. -/
def getActiveEntityReasons (q : List Char) : String :=
  let ql := lowerList q
  let reasons :=
    (if ["start", "sit", "lineup", "roster"].any
        (fun w => pyContains ql w.toList) then ["lineup decisions"] else []) ++
    (if ["waiver", "trade", "pickup", "drop"].any
        (fun w => pyContains ql w.toList) then ["roster management"] else []) ++
    (if ["matchup", "projection", "ranking"].any
        (fun w => pyContains ql w.toList) then ["performance analysis"] else []) ++
    (if ["performing", "lately", "trends", "value"].any
        (fun w => pyContains ql w.toList) then ["performance trends"] else [])
  if reasons.isEmpty then "fantasy sports context"
  else String.intercalate ", " reasons

/-- Python truthiness of the `user_override: Optional[str]` argument. -/
def overrideTruthy : Option String → Bool
  | none => false
  | some s => !(s == "")

/-- `WebSearchDiscipline.should_search`: decision plus reasoning string. -/
def should_search (q : String) (ctx : Option (List Json))
    (userOverride : Option String) : SearchDecision × String :=
  let ql := lowerList q.toList
  if overrideTruthy userOverride ||
      bypassKeywords.any (fun b => pyContains ql b.toList) then
    (.BYPASS, "User explicitly disabled search")
  else if isHistoricalQuery q.toList then
    (.SKIP, "Query appears historical/theoretical with no time-sensitive elements")
  else if isTimeSensitiveQuery q.toList then
    (.MANDATORY, "Time-sensitive query detected: " ++ getTimeSensitiveReasons q.toList)
  else if hasRecentlyActiveEntities q.toList ctx then
    (.MANDATORY, "Recently active entities detected: " ++ getActiveEntityReasons q.toList)
  else
    (.SKIP, "Query appears historical/theoretical with no time-sensitive elements")

/-! ## Schema validator (`app/services/schema_validator.py`) -/

/-- Python `float(x)` applied to a decoded JSON value: numbers pass
through, booleans coerce to 1/0, numeric strings are parsed; everything
else raises (modelled as `none`).  String parsing covers finite decimal
literals with optional sign, fraction and exponent. -/
def pyFloat : Json → Option ℚ
  | .num q => some q
  | .bool b => some (if b then 1 else 0)
  | .str s => pyFloatOfString s
  | _ => none
where
  /-- Python `float(str)` for finite decimal literals. -/
  pyFloatOfString (s : String) : Option ℚ :=
    let t := pyStrip s.toList
    let (neg, t1) :=
      match t with
      | '-' :: r => (true, r)
      | '+' :: r => (false, r)
      | _ => (false, t)
    let ip := t1.takeWhile isDigitChar
    let t2 := t1.drop ip.length
    let (fracPart, t3) :=
      match t2 with
      | '.' :: r =>
        let fd := r.takeWhile isDigitChar
        (some ((digitsToNat fd : ℚ) / (10 : ℚ) ^ fd.length, fd.length), r.drop fd.length)
      | _ => (some ((0 : ℚ), 0), t2)
    match fracPart with
    | none => none
    | some (fv, fdLen) =>
      if ip.isEmpty && fdLen = 0 then none
      else
        let base : ℚ := (digitsToNat ip : ℚ) + fv
        let (expPart, t4) :=
          match t3 with
          | 'e' :: r => pyExpTail r
          | 'E' :: r => pyExpTail r
          | _ => (some (0 : ℤ), t3)
        match expPart with
        | none => none
        | some e =>
          if t4.isEmpty then
            let v := base * (10 : ℚ) ^ e
            some (if neg then -v else v)
          else none
  /-- Exponent tail of a Python float literal. -/
  pyExpTail (r : List Char) : Option ℤ × List Char :=
    let (esign, r1) :=
      match r with
      | '+' :: r2 => ((1 : ℤ), r2)
      | '-' :: r2 => ((-1 : ℤ), r2)
      | _ => ((1 : ℤ), r)
    let ed := r1.takeWhile isDigitChar
    if ed.isEmpty then (none, r)
    else (some (esign * (digitsToNat ed : ℤ)), r1.drop ed.length)

/-- Fill key `k` with `dflt fs` when absent; if present, leave the record
untouched.  Each stage of `_transform_json_format` has this shape. -/
def ensureKey (fs : List (String × Json)) (k : String)
    (dflt : List (String × Json) → Json) : List (String × Json) :=
  if hasKey fs k then fs else setKey fs k (dflt fs)

/-- Alternative field names tried for `main_advice`. -/
def mainAdviceAltFields : List String :=
  ["message", "advice", "recommendation", "answer", "response", "text",
   "content", "summary"]

/-- Scan of the `output` list in `_transform_json_format`: an item whose
`content` is a string assigns it and breaks the outer loop; an item whose
`content` is a list assigns the `text` of its first dict element and
continues, so a later string-content item can overwrite it. -/
def outputScan : List Json → Option Json → Option Json
  | [], acc => acc
  | item :: rest, acc =>
    match item with
    | .obj fs =>
      match getKey fs "content" with
      | some (.str s) => some (.str s)
      | some (.arr cs) =>
        let acc2 :=
          match cs.findSome? (fun ci =>
            match ci with
            | .obj g => getKey g "text"
            | _ => none) with
          | some t => some t
          | none => acc
        outputScan rest acc2
      | _ => outputScan rest acc
    | _ => outputScan rest acc

/-- Fallback `main_advice` synthesized from the first string value longer
than 10 characters, truncated to 200 characters. -/
def firstLongStr : List (String × Json) → Option String
  | [] => none
  | (_, .str v) :: rest =>
    if v.length > 10 then some (String.mk (v.toList.take 200))
    else firstLongStr rest
  | _ :: rest => firstLongStr rest

/-- Value chosen for a missing `main_advice` in `_transform_json_format`:
alias fields, then the nested `output` scan, then the first long string,
then a fixed apology. -/
def mainAdviceDefault (fs : List (String × Json)) : Json :=
  match mainAdviceAltFields.findSome? (fun k =>
    match getKey fs k with
    | some (.str s) => some s
    | _ => none) with
  | some s => .str s
  | none =>
    match getKey fs "output" with
    | some (.arr items) =>
      match outputScan items none with
      | some v => v
      | none =>
        match firstLongStr fs with
        | some s => .str s
        | none => .str "Response processing error. Please try again with a more specific question."
    | _ =>
      match firstLongStr fs with
      | some s => .str s
      | none => .str "Response processing error. Please try again with a more specific question."

/-- Value chosen for a missing `confidence_score`: the first alias field
that converts with `float(...)`, scaled down when above 1 by treating it as
a 0-100 value; defaults to 0.7. -/
def confidenceDefault (fs : List (String × Json)) : Json :=
  match ["confidence", "score", "certainty", "probability"].findSome?
      (fun k => (getKey fs k).bind pyFloat) with
  | some q => .num (if q > 1 then (min q 100) / 100 else q)
  | none => .num (7 / 10)

/-- Value chosen for a missing `reasoning`: the first string-valued alias
field; defaults to a fixed sentence. -/
def reasoningDefault (fs : List (String × Json)) : Json :=
  match ["explanation", "rationale", "analysis", "details",
      "description"].findSome? (fun k =>
    match getKey fs k with
    | some (.str s) => some s
    | _ => none) with
  | some s => .str s
  | none => .str "Based on analysis of available data and statistical patterns."

/-- Value chosen for a missing `model_identifier`: the `model` field if
present, else the literal `unknown_model`. -/
def modelIdentDefault (fs : List (String × Json)) : Json :=
  match getKey fs "model" with
  | some v => v
  | none => .str "unknown_model"

/-- `SchemaValidator._transform_json_format`: successively guarantee the
five schema fields, in source order. -/
def transformJsonFormat (fs : List (String × Json)) : List (String × Json) :=
  let t1 := ensureKey fs "main_advice" mainAdviceDefault
  let t2 := ensureKey t1 "confidence_score" confidenceDefault
  let t3 := ensureKey t2 "reasoning" reasoningDefault
  let t4 := ensureKey t3 "alternatives" fun _ => .null
  ensureKey t4 "model_identifier" modelIdentDefault

/-- Modelled from the spec: the JSON Schema checked by `validate_json` lives
in `schemas/response.schema.json`, a file generated by `generate_schema.py`
from the `StructuredAdvice` Pydantic model and absent from the source tree.
Per that model, `main_advice` is a required string; `reasoning` and
`model_identifier` are strings or null; `confidence_score` is a number in
[0, 1] or null; `alternatives` is an array of strings or null; additional
properties are unconstrained. -/
def responseSchemaValid (fs : List (String × Json)) : Bool :=
  (match getKey fs "main_advice" with
   | some (.str _) => true
   | _ => false) &&
  (match getKey fs "reasoning" with
   | none | some .null | some (.str _) => true
   | _ => false) &&
  (match getKey fs "confidence_score" with
   | none | some .null => true
   | some (.num q) => decide (0 ≤ q) && decide (q ≤ 1)
   | _ => false) &&
  (match getKey fs "alternatives" with
   | none | some .null => true
   | some (.arr xs) => xs.all fun x => match x with | .str _ => true | _ => false
   | _ => false) &&
  (match getKey fs "model_identifier" with
   | none | some .null | some (.str _) => true
   | _ => false)

/-- `SchemaValidator.validate_json` on an already-parsed dict: transform,
then check the schema.  Error messages are modelled up to their fixed
prefix. -/
def validateJsonObj (fs : List (String × Json)) : Bool × Option String :=
  let t := transformJsonFormat fs
  if responseSchemaValid t then (true, none)
  else (false, some "Schema validation failed: value does not match the response schema")

/-- `SchemaValidator.validate_json` on a raw string: parse, transform,
validate.  A non-dict document makes `_transform_json_format` raise, which
the method reports as a generic validation error. -/
def validateJsonStr (s : String) : Bool × Option String :=
  match jsonParse s with
  | none => (false, some "Invalid JSON format: could not parse accumulated text")
  | some (.obj fs) => validateJsonObj fs
  | some _ => (false, some "Validation error: document is not an object")

/-- `SchemaValidator.validate_streaming_chunk` with `is_complete=True`:
blank input passes, otherwise defer to `validate_json`. -/
def validateStreamingChunkComplete (s : String) : Bool × Option String :=
  if (pyStrip s.toList).isEmpty then (true, none)
  else validateJsonStr s

/-- `SchemaValidator.create_fallback_response`.  When the stripped text
opens with a brace and reparses as a dict whose transformed `main_advice`
is truthy, the transformed record is repaired in place (a non-string
`reasoning` raises inside the `try` and falls through to the default
branch); otherwise a fixed repaired record is built around the raw text. -/
def create_fallback_response (originalText : String) (errorMsg : String) :
    List (String × Json) :=
  let fromJson : Option (List (String × Json)) :=
    if startsWithL (pyStrip originalText.toList) ['\x7b'] then
      match jsonParse originalText with
      | some (.obj fs) =>
        let t := transformJsonFormat fs
        match getKey t "main_advice" with
        | some ma =>
          if pyTruthy ma then
            match getKey t "reasoning" with
            | some (.str r) =>
              let t2 := setKey t "reasoning"
                (.str (r ++ "\n\nNote: Response required transformation due to: " ++ errorMsg))
              let t3 := setKey t2 "confidence_score"
                ((getKey t2 "confidence_score").getD (.num (1 / 2)))
              let t4 := setKey t3 "alternatives"
                ((getKey t3 "alternatives").getD .null)
              some (setKey t4 "model_identifier"
                ((getKey t4 "model_identifier").getD (.str "validation_fallback")))
            | some _ => none
            | none =>
              let t2 := setKey t "reasoning"
                (.str ("Response validation required correction: " ++ errorMsg))
              let t3 := setKey t2 "confidence_score"
                ((getKey t2 "confidence_score").getD (.num (1 / 2)))
              let t4 := setKey t3 "alternatives"
                ((getKey t3 "alternatives").getD .null)
              some (setKey t4 "model_identifier"
                ((getKey t4 "model_identifier").getD (.str "validation_fallback")))
          else none
        | none => none
      | _ => none
    else none
  match fromJson with
  | some fs => fs
  | none =>
    let ct := pyStrip originalText.toList
    let ma :=
      if !ct.isEmpty && !startsWithL ct ['\x7b'] && !startsWithL ct ['['] then
        String.mk (ct.take 200)
      else
        "Sorry, I encountered an error generating a proper response."
    [("main_advice", .str ma),
     ("reasoning", .str ("Response validation failed: " ++ errorMsg ++
       ". Please try rephrasing your question.")),
     ("confidence_score", .num (1 / 10)),
     ("alternatives", .null),
     ("model_identifier", .str "validation_fallback")]

/-! ## Finalization of the accumulated stream text
(`response.completed` branch of `get_streaming_response`) -/

/-- Pydantic validation of one decoded JSON document against the
`StructuredAdvice` model (`StructuredAdvice.model_validate_json` followed by
`model_dump`): `main_advice` must be a string; `reasoning` and
`model_identifier` strings or null; `confidence_score` a number (numeric
strings coerce in lax mode) within `ge=0.0, le=1.0`, or null;
`alternatives` a list of strings or null.  Missing optional fields dump as
null; extra fields are dropped; field order follows the model declaration. -/
def structuredAdviceValidate (j : Json) : Option (List (String × Json)) :=
  match j with
  | .obj fs =>
    match getKey fs "main_advice" with
    | some (.str ma) =>
      let reasoningVal : Option Json :=
        match getKey fs "reasoning" with
        | none => some .null
        | some .null => some .null
        | some (.str r) => some (.str r)
        | some _ => none
      let confVal : Option Json :=
        match getKey fs "confidence_score" with
        | none => some .null
        | some .null => some .null
        | some (.num q) => if 0 ≤ q && q ≤ 1 then some (.num q) else none
        | some (.str s) =>
          match pyFloat.pyFloatOfString s with
          | some q => if 0 ≤ q && q ≤ 1 then some (.num q) else none
          | none => none
        | some _ => none
      let altVal : Option Json :=
        match getKey fs "alternatives" with
        | none => some .null
        | some .null => some .null
        | some (.arr xs) =>
          if xs.all (fun x => match x with | .str _ => true | _ => false) then
            some (.arr xs)
          else none
        | some _ => none
      let miVal : Option Json :=
        match getKey fs "model_identifier" with
        | none => some .null
        | some .null => some .null
        | some (.str m) => some (.str m)
        | some _ => none
      match reasoningVal, confVal, altVal, miVal with
      | some r, some c, some a, some mi =>
        some [("main_advice", .str ma), ("reasoning", r),
              ("confidence_score", c), ("alternatives", a),
              ("model_identifier", mi)]
      | _, _, _, _ => none
    | _ => none
  | _ => none

/-- `StructuredAdvice.model_validate_json` on the accumulated text:
parse failure or model validation failure raises (modelled as `none`). -/
def structuredAdviceParse (s : String) : Option (List (String × Json)) :=
  match jsonParse s with
  | some j => structuredAdviceValidate j
  | none => none

/-- The `model_dump` of `StructuredAdvice(main_advice=text, model_identifier=model)`
built on the plain-text path of the `response.completed` handler. -/
def plainTextAdvice (text model : String) : List (String × Json) :=
  [("main_advice", .str text), ("reasoning", .null),
   ("confidence_score", .null), ("alternatives", .null),
   ("model_identifier", .str model)]

/-- The `response.completed` handler of `get_streaming_response`: compute
`(final_json, validation_error, parse_error)` from the accumulated content.
Validation first; on failure repair via `create_fallback_response`; on
success reparse through the `StructuredAdvice` model (JSON when the
stripped text opens with a brace, else plain text), re-validate the dump,
and fall back again on any failure.  An exception from the model parse is
reported through the `parse_error` field. -/
def finalizeContent (model accumulated : String) :
    Json × Option String × Option String :=
  let v1 := validateStreamingChunkComplete accumulated
  if !v1.1 then
    let msg := v1.2.getD ""
    (.obj (create_fallback_response accumulated msg), some msg, none)
  else
    let stripped := pyStrip accumulated.toList
    if startsWithL stripped ['\x7b'] then
      match structuredAdviceParse accumulated with
      | some adviceDict =>
        let v2 := validateJsonObj adviceDict
        if v2.1 then (.obj adviceDict, none, none)
        else
          let msg := v2.2.getD ""
          (.obj (create_fallback_response accumulated msg), some msg, none)
      | none =>
        let base := if stripped.isEmpty then "No response received"
                    else String.mk stripped
        let msg := "Parse error: model validation failed"
        (.obj (create_fallback_response base msg), none, some msg)
    else
      let adviceDict := plainTextAdvice (String.mk stripped) model
      let v2 := validateJsonObj adviceDict
      if v2.1 then (.obj adviceDict, none, none)
      else
        let msg := v2.2.getD ""
        (.obj (create_fallback_response accumulated msg), some msg, none)

/-! ## Streaming state machine (`get_streaming_response`)

The event loop is modelled as a fold over the finite upstream event
sequence.  Domain-data tool execution (the PyBaseball service calls) is an
oracle parameter: an exception raised by a tool is an `Except.error`, and a
method may also return `None` (`Except.ok none`). -/

/-- Result of calling one of the PyBaseball service methods: raised
exception message, or an optional JSON-serializable result. -/
def ToolOracle : Type :=
  String → Json → Except String (Option Json)

/-- Upstream Responses-API events, one constructor per handled
`event.type` shape.  `errorEvt` covers `response.error`, `response.failed`
and any otherwise-unhandled event carrying an `error` attribute; the
`legacy` constructors carry `none` when the event lacks the
`function_call` attribute. -/
inductive UpEvent where
  | createdWithId (rid : String) : UpEvent
  | created : UpEvent
  | webSearchSearching : UpEvent
  | outputTextDelta (delta : String) : UpEvent
  | outputTextDone : UpEvent
  | inProgress : UpEvent
  | outputItemAdded (itemType : Option String) : UpEvent
  | webSearchInProgress : UpEvent
  | webSearchCompleted : UpEvent
  | funcCallName (name : Option String) : UpEvent
  | funcArgsDelta (delta : String) : UpEvent
  | funcArgsDone : UpEvent
  | legacyFuncCall (name : Option String) : UpEvent
  | legacyFuncCallDone (fc : Option (String × Option String)) : UpEvent
  | outputItemDone (itemType : Option String) : UpEvent
  | contentPartAdded : UpEvent
  | annotAdded (title : Option String) : UpEvent
  | contentPartDone : UpEvent
  | completed : UpEvent
  | errorEvt (message : Option String) : UpEvent
  | unknownEvt (evtType : String) : UpEvent

/-- Downstream server-sent events, by `event:` tag and payload fields. -/
inductive DownEvent where
  | statusUpdate (status message : String) : DownEvent
  | textDelta (delta : String) : DownEvent
  | toolResult (tool : String) (result : Json) : DownEvent
  | toolError (tool : String) (errText : String) : DownEvent
  | responseComplete (finalJson : Json) (responseId : Option String)
      (validationError parseError : Option String) : DownEvent
  | errorD (errCode message : String) : DownEvent

/-- Mutable per-stream state of the generator loop. -/
structure StreamState where
  accumulated : String
  responseId : Option String
  funcName : Option String
  argsBuf : String

/-- The initial per-stream state. -/
def initState : StreamState :=
  { accumulated := "", responseId := none, funcName := none, argsBuf := "" }

/-- Routing of a completed function call to the PyBaseball service: only
the three declared tool names dispatch; `args.get` on a non-dict raises. -/
def routeTool (tools : ToolOracle) (name : String) (args : Json) :
    Except String (Option Json) :=
  if name == "get_mlb_player_stats" || name == "get_mlb_standings" ||
      name == "search_mlb_players" then
    match args with
    | .obj _ => tools name args
    | _ => .error "AttributeError: arguments object has no attribute get"
  else .ok none

/-- Legacy (`response.function_call.done`) dispatch: results are streamed
only when truthy; an exception becomes a `tool_error` event. -/
def legacyDispatch (tools : ToolOracle) (name : String) (args : Json) :
    List DownEvent :=
  match routeTool tools name args with
  | .ok (some r) =>
    if pyTruthy r then
      [.toolResult name r,
       .statusUpdate "function_call_completed" (name ++ " completed.")]
    else []
  | .ok none => []
  | .error m => [.toolError name m]

/-- New-style (`response.function_call_arguments.done`) dispatch: results
are streamed when not `None`; an exception becomes a `tool_error` event. -/
def newStyleDispatch (tools : ToolOracle) (name : Option String)
    (args : Json) : List DownEvent :=
  match name with
  | some n =>
    match routeTool tools n args with
    | .ok (some r) =>
      [.toolResult n r,
       .statusUpdate "function_call_completed" (n ++ " completed.")]
    | .ok none => []
    | .error m => [.toolError n m]
  | none => []

/-- One iteration of the `async for event in response` loop: the emitted
downstream events plus the next state, or `none` when the branch breaks
out of the loop (terminal completion/error, or an uncaught exception). -/
def step (tools : ToolOracle) (model : String) (e : UpEvent)
    (st : StreamState) : List DownEvent × Option StreamState :=
  match e with
  | .createdWithId rid =>
    ([.statusUpdate "created" "Connecting..."],
     some { st with responseId := some rid })
  | .created => ([.statusUpdate "created" "Connecting..."], some st)
  | .webSearchSearching =>
    ([.statusUpdate "web_search_searching" "Searching the web..."], some st)
  | .outputTextDelta d =>
    ([.textDelta d], some { st with accumulated := st.accumulated ++ d })
  | .outputTextDone => ([], some st)
  | .inProgress => ([], some st)
  | .outputItemAdded itemType =>
    (match itemType with
     | some "web_search_call" =>
       [.statusUpdate "web_search_started" "Starting web search..."]
     | some "message" =>
       [.statusUpdate "message_start" "Assistant is typing..."]
     | _ => [], some st)
  | .webSearchInProgress => ([], some st)
  | .webSearchCompleted =>
    ([.statusUpdate "web_search_completed" "Web search completed."], some st)
  | .funcCallName name =>
    ((if name.getD "" != "" then
        [.statusUpdate "function_call_started"
          ("Calling " ++ name.getD "" ++ "...")]
      else []),
     some { st with funcName := name })
  | .funcArgsDelta d =>
    ([], some { st with argsBuf := st.argsBuf ++ d })
  | .funcArgsDone =>
    (newStyleDispatch tools st.funcName
      ((jsonParse (if st.argsBuf == "" then "\x7b\x7d" else st.argsBuf)).getD
        (.obj [])),
     some { st with funcName := none, argsBuf := "" })
  | .legacyFuncCall fc =>
    (match fc with
     | some n => [.statusUpdate "function_call_started" ("Calling " ++ n ++ "...")]
     | none => [], some st)
  | .legacyFuncCallDone fc =>
    (match fc with
     | none => ([], some st)
     | some (n, none) => (legacyDispatch tools n (.obj []), some st)
     | some (n, some argsStr) =>
       match jsonParse argsStr with
       | none =>
         ([.errorD "UNEXPECTED_ERROR"
            "JSONDecodeError: legacy function call arguments"], none)
       | some a => (legacyDispatch tools n a, some st))
  | .outputItemDone itemType =>
    ((if itemType == some "message" then
        [.statusUpdate "message_generating_done" "Finalizing response..."]
      else []), some st)
  | .contentPartAdded => ([], some st)
  | .annotAdded title =>
    ([.statusUpdate "annotation_found"
       ("Processing " ++ title.getD "citation" ++ "...")], some st)
  | .contentPartDone => ([], some st)
  | .completed =>
    let r := finalizeContent model st.accumulated
    ([.responseComplete r.1 st.responseId r.2.1 r.2.2], none)
  | .errorEvt message =>
    let errText :=
      match message with
      | some s => if s == "" then "Unknown error" else s
      | none => "Unknown error"
    ([.errorD "API_ERROR" errText], none)
  | .unknownEvt evtType =>
    ([.statusUpdate "unknown_event" ("Received event: " ++ evtType)], some st)

/-- The event loop: apply `step` until the input ends or a branch breaks. -/
def runLoop (tools : ToolOracle) (model : String) :
    StreamState → List UpEvent → List DownEvent
  | _, [] => []
  | st, e :: rest =>
    match step tools model e st with
    | (outs, some st2) => outs ++ runLoop tools model st2 rest
    | (outs, none) => outs

/-- A full run of `get_streaming_response` over a finite upstream event
sequence: the loop output, followed by the synthesized `NO_EVENTS` error
when no upstream event at all was received. -/
def runStream (tools : ToolOracle) (model : String) (evs : List UpEvent) :
    List DownEvent :=
  runLoop tools model initState evs ++
    (if evs.isEmpty then
       [.errorD "NO_EVENTS" "No events received from the API"]
     else [])

/-! ## Confidence scoring (`app/services/confidence_scoring.py`)

The `confidence_logs` table is modelled as a list of rows in primary-key
order; timestamps are integers. -/

/-- One row of the `confidence_logs` table (`ConfidenceLog`). -/
structure ConfidenceLogRow where
  response_text : String
  confidence_score : ℚ
  user_query : String
  model_used : String
  web_search_used : Bool
  outcome : Option Bool
  timestamp : ℤ
  feedback_timestamp : Option ℤ
  response_id : Option String
deriving DecidableEq, Repr

/-- `ConfidenceScoringService.update_outcome`: find the first row whose
`response_id` matches, set its outcome and feedback timestamp, and report
success; report failure on an unknown id, leaving the table unchanged. -/
def update_outcome (tbl : List ConfidenceLogRow) (rid : String)
    (outcome : Bool) (now : ℤ) : Bool × List ConfidenceLogRow :=
  match tbl with
  | [] => (false, [])
  | e :: rest =>
    if e.response_id == some rid then
      (true, { e with outcome := some outcome,
                      feedback_timestamp := some now } :: rest)
    else
      let r := update_outcome rest rid outcome now
      (r.1, e :: r.2)

/-- The rows selected by `calculate_brier_score`: known outcome and
timestamp at or after the cutoff. -/
def brierEntries (tbl : List ConfidenceLogRow) (cutoff : ℤ) :
    List ConfidenceLogRow :=
  tbl.filter fun e => e.outcome.isSome && decide (cutoff ≤ e.timestamp)

/-- Outcome encoding of `calculate_brier_score`:
`1.0 if entry.outcome else 0.0`. -/
def outcomeVal (o : Option Bool) : ℚ :=
  if o == some true then 1 else 0

/-- `ConfidenceScoringService.calculate_brier_score`: accumulate the
squared errors over the selected rows and divide by their number; `none`
when no row qualifies (the service then reports no score). -/
def calculate_brier_score (tbl : List ConfidenceLogRow) (cutoff : ℤ) :
    Option ℚ :=
  let entries := brierEntries tbl cutoff
  if entries.isEmpty then none
  else
    some ((entries.foldl
      (fun acc e => acc + (e.confidence_score - outcomeVal e.outcome) ^ 2) 0)
      / entries.length)

/-! ### Claim-side mirror definitions

Definitions below restate claim language (not source code) for the claims
compared against the source-derived functions above. -/

/-- Stated from claim C7: the arithmetic mean of
`(confidence - outcome)^2` over exactly the trailing-window entries whose
outcome is known, with outcome encoded as 1.0 for true and 0.0 for false. -/
def brierClaimMean (tbl : List ConfidenceLogRow) (cutoff : ℤ) : ℚ :=
  let sel := tbl.filter fun e => decide (e.outcome ≠ none ∧ cutoff ≤ e.timestamp)
  ((sel.map fun e =>
      (e.confidence_score - if e.outcome = some true then 1 else 0) ^ 2).sum)
    / sel.length

/-- Stated from claim C9: the query text contains a four-digit year
matching `(19|20)\d2` as a plain substring (no word-boundary requirement
appears in the claim). -/
def claimYearHit (s : List Char) : Bool :=
  (List.range (s.length + 1)).any fun i =>
    (litAt s i "19".toList || litAt s i "20".toList) &&
    isDigitAt s (i + 2) && isDigitAt s (i + 3)

/-! ### Projection helpers used in theorem statements -/

/-- The `main_advice` field of a finalized record, when it is a string. -/
def mainAdviceOf (j : Json) : Option String :=
  match j with
  | .obj fs =>
    match getKey fs "main_advice" with
    | some (.str s) => some s
    | _ => none
  | _ => none

/-- The `confidence_score` field of a finalized record, when numeric. -/
def confidenceOf (j : Json) : Option ℚ :=
  match j with
  | .obj fs =>
    match getKey fs "confidence_score" with
    | some (.num q) => some q
    | _ => none
  | _ => none

/-- The `final_json` of the last downstream event, when that event is a
`response_complete`. -/
def finalJsonOf (ds : List DownEvent) : Option Json :=
  match ds.getLast? with
  | some (.responseComplete j _ _ _) => some j
  | _ => none

/-- Is a downstream event one of the two terminal kinds
(`response_complete` or `error`)? -/
def isTerminalDown : DownEvent → Bool
  | .responseComplete _ _ _ _ => true
  | .errorD _ _ => true
  | _ => false

/-- Upstream events on which the loop body breaks (or raises): completion,
error, and a legacy `function_call.done` whose `arguments` string fails to
parse (its `json.loads` call sits outside the per-call `try`). -/
def isBreakUp : UpEvent → Bool
  | .completed => true
  | .errorEvt _ => true
  | .legacyFuncCallDone (some (_, some argsStr)) => (jsonParse argsStr).isNone
  | _ => false

/-! ## Claims about the search decision engine -/

/-- C8: on the query "Should I start Josh Allen tonight?" with no override
and no conversation context, `should_search` returns MANDATORY and its
reasoning cites the time-sensitive keyword "tonight". -/
theorem c8_josh_allen_tonight_mandatory :
    should_search "Should I start Josh Allen tonight?" none none =
      (SearchDecision.MANDATORY, "Time-sensitive query detected: tonight") ∧
    pyContains "Time-sensitive query detected: tonight".toList
      "tonight".toList = true := by
  constructor
  · rfl
  · rfl

/-- C9 counterexample: the query "wk2024tonight" contains the four-digit
year 2024 matching `(19|20)\d2` and no bypass token, yet with no override
the engine returns MANDATORY, not SKIP — the year is embedded in a word,
so the source's word-boundary year pattern does not fire. -/
theorem c9_embedded_year_not_skipped :
    claimYearHit (lowerList "wk2024tonight".toList) = true ∧
    (bypassKeywords.any fun b =>
      pyContains (lowerList "wk2024tonight".toList) b.toList) = false ∧
    overrideTruthy none = false ∧
    (should_search "wk2024tonight" none none).1 = SearchDecision.MANDATORY := by
  refine ⟨rfl, rfl, rfl, rfl⟩

/-- C9 amended: historical classification takes precedence whenever the
four-digit year occurs delimited by word boundaries (the source pattern
`\b(19|20)\d2\b`): for every query whose lower-cased text contains such a
year token and no bypass token, with no override, `should_search` returns
SKIP with the historical reasoning — even when time-sensitive keywords or
fantasy vocabulary are also present. -/
theorem c9_year_token_skips (q : String)
    (hYear : searchAny (lowerList q.toList) matchYearBnd = true)
    (hBypass : (bypassKeywords.any fun b =>
      pyContains (lowerList q.toList) b.toList) = false)
    (ctx : Option (List Json)) :
    should_search q ctx none =
      (SearchDecision.SKIP,
       "Query appears historical/theoretical with no time-sensitive elements") := by
  have hHist : isHistoricalQuery q.toList = true := by
    simp only [isHistoricalQuery]
    rw [hYear]
    simp
  have hcond : (overrideTruthy none ||
      (bypassKeywords.any fun b => pyContains (lowerList q.toList) b.toList))
      = false := by
    rw [hBypass]
    rfl
  simp only [should_search]
  rw [hcond, hHist]
  simp

/-- C9 witness: instantiation of the amended theorem on the query
"Should I start Josh Allen tonight in 2019?", which contains both the
keyword "tonight" and the year token 2019 and is nevertheless skipped. -/
theorem c9_year_token_skips_witness :
    should_search "Should I start Josh Allen tonight in 2019?" none none =
      (SearchDecision.SKIP,
       "Query appears historical/theoretical with no time-sensitive elements") :=
  c9_year_token_skips "Should I start Josh Allen tonight in 2019?"
    (by decide) (by decide) none

/-- C10: the override value is never inspected — any non-empty override
string forces BYPASS with the explicitly-disabled reasoning, and an
empty-string override behaves exactly like no override. -/
theorem c10_override_never_inspected (q : String) (ctx : Option (List Json))
    (s : String) (hs : s ≠ "") :
    should_search q ctx (some s) =
      (SearchDecision.BYPASS, "User explicitly disabled search") ∧
    should_search q ctx (some "") = should_search q ctx none := by
  constructor
  · have ht : overrideTruthy (some s) = true := by
      simp [overrideTruthy, hs]
    unfold should_search
    simp [ht]
  · rfl

/-- C10 witness: instantiation with an override string that is not a
recognized bypass command. -/
theorem c10_override_never_inspected_witness :
    should_search "Should I start Josh Allen tonight?" none
        (some "definitely not a bypass command") =
      (SearchDecision.BYPASS, "User explicitly disabled search") ∧
    should_search "Should I start Josh Allen tonight?" none (some "") =
      should_search "Should I start Josh Allen tonight?" none none :=
  c10_override_never_inspected "Should I start Josh Allen tonight?" none
    "definitely not a bypass command" (by decide)

/-! ## Claims about the confidence log -/

/-- A concrete confidence log row used in the C3 counterexample. -/
def c3Row : ConfidenceLogRow :=
  { response_text := "resp", confidence_score := 1 / 2, user_query := "q",
    model_used := "m", web_search_used := false, outcome := none,
    timestamp := 0, feedback_timestamp := none, response_id := some "r1" }

/-- C3 counterexample: after a first `update_outcome` sets an entry's
outcome to true (feedback time 100), a second call with the same id and
outcome false does not leave the entry unchanged — it overwrites both the
outcome and the feedback timestamp. -/
theorem c3_second_update_overwrites :
    ((update_outcome (update_outcome [c3Row] "r1" true 100).2
        "r1" false 200).2.head?.map
      fun e => (e.outcome, e.feedback_timestamp)) =
      some (some false, some 200) ∧
    (some false, (some 200 : Option ℤ)) ≠ (some true, (some 100 : Option ℤ)) := by
  exact ⟨rfl, by decide⟩

/-- C3 amended: `update_outcome` is last-writer-wins, not
write-at-most-once.  Every call whose id matches a row succeeds and sets
that first matching row's outcome to the supplied value and its feedback
timestamp to the call time — overwriting any previously recorded outcome —
while a call with an unknown id reports failure and leaves the table
unchanged. -/
theorem c3_update_outcome_last_writer_wins :
    (∀ (pre post : List ConfidenceLogRow) (e : ConfidenceLogRow)
      (rid : String) (o : Bool) (now : ℤ),
      (∀ x ∈ pre, x.response_id ≠ some rid) → e.response_id = some rid →
      update_outcome (pre ++ e :: post) rid o now =
        (true, pre ++ { e with outcome := some o,
                               feedback_timestamp := some now } :: post)) ∧
    (∀ (tbl : List ConfidenceLogRow) (rid : String) (o : Bool) (now : ℤ),
      (∀ x ∈ tbl, x.response_id ≠ some rid) →
      update_outcome tbl rid o now = (false, tbl)) := by
  constructor
  · intro pre post e rid o now hpre he
    induction pre with
    | nil =>
      simp only [List.nil_append, update_outcome]
      rw [show (e.response_id == some rid) = true by simp [he]]
      simp
    | cons x xs ih =>
      have hx : (x.response_id == some rid) = false := by
        simp [hpre x (by simp)]
      have iha := ih fun y hy => hpre y (by simp [hy])
      simp only [List.cons_append, update_outcome]
      rw [hx]
      simp only [Bool.false_eq_true, if_false, List.append_eq]
      rw [iha]
  · intro tbl rid o now h
    induction tbl with
    | nil => rfl
    | cons x xs ih =>
      have hx : (x.response_id == some rid) = false := by
        simp [h x (by simp)]
      have iha := ih fun y hy => h y (by simp [hy])
      simp only [update_outcome]
      rw [hx]
      simp only [Bool.false_eq_true, if_false]
      rw [iha]

/-- C3 amended witness: both conjuncts instantiated on concrete tables. -/
theorem c3_update_outcome_last_writer_wins_witness :
    update_outcome ([] ++ c3Row :: []) "r1" false 200 =
      (true, [] ++ { c3Row with outcome := some false,
                                feedback_timestamp := some 200 } :: []) ∧
    update_outcome [c3Row] "zzz" true 7 = (false, [c3Row]) :=
  ⟨c3_update_outcome_last_writer_wins.1 [] [] c3Row "r1" false 200
      (by intro x hx; cases hx) rfl,
   c3_update_outcome_last_writer_wins.2 [c3Row] "zzz" true 7
      (by intro x hx; simp at hx; subst hx; simp [c3Row])⟩

/-! ## Claim about the Brier score -/

/-- Accumulating a sum with `foldl` equals the sum of the mapped list. -/
theorem foldl_add_eq_sum (f : ConfidenceLogRow → ℚ)
    (l : List ConfidenceLogRow) (a : ℚ) :
    l.foldl (fun acc e => acc + f e) a = a + (l.map f).sum := by
  induction l generalizing a with
  | nil => simp
  | cons x xs ih => simp [ih, add_assoc]

/-- The source filter of `calculate_brier_score` coincides with the
claim's selection criterion. -/
theorem brierEntries_eq_claim_filter (tbl : List ConfidenceLogRow)
    (cutoff : ℤ) :
    brierEntries tbl cutoff =
      tbl.filter fun e => decide (e.outcome ≠ none ∧ cutoff ≤ e.timestamp) := by
  unfold brierEntries
  apply List.filter_congr
  intro e _
  cases h : e.outcome <;> simp [h, Option.isSome]

/-- C7: whenever the trailing window contains at least one entry with a
known outcome, the computed Brier score equals the arithmetic mean of
`(confidence - outcome)^2` over exactly those entries (outcome encoded as
1.0 for true, 0.0 for false); entries with unknown outcome or outside the
window contribute nothing. -/
theorem c7_brier_is_mean (tbl : List ConfidenceLogRow) (cutoff : ℤ)
    (h : (tbl.filter fun e =>
      decide (e.outcome ≠ none ∧ cutoff ≤ e.timestamp)) ≠ []) :
    calculate_brier_score tbl cutoff = some (brierClaimMean tbl cutoff) := by
  have hfe := brierEntries_eq_claim_filter tbl cutoff
  unfold calculate_brier_score brierClaimMean
  rw [hfe]
  rw [if_neg (by simpa using h)]
  congr 1
  rw [foldl_add_eq_sum, zero_add]
  congr 1
  congr 1
  apply List.map_congr_left
  intro e he
  have hmem := List.of_mem_filter he
  have houtcome : e.outcome ≠ none := by
    simpa using (of_decide_eq_true hmem).1
  unfold outcomeVal
  cases ho : e.outcome with
  | none => exact absurd ho houtcome
  | some b =>
    cases b <;> simp [ho]

/-- C7 witness: the concrete table has two qualifying entries
(scores 0.8 with outcome true and 0.3 with outcome false), one entry with
unknown outcome and one outside the window; the computed score is their
mean squared error 13/200. -/
theorem c7_brier_is_mean_witness :
    calculate_brier_score
      [{ response_text := "a", confidence_score := 4 / 5, user_query := "q",
         model_used := "m", web_search_used := false, outcome := some true,
         timestamp := 5, feedback_timestamp := none, response_id := some "a" },
       { response_text := "b", confidence_score := 3 / 10, user_query := "q",
         model_used := "m", web_search_used := false, outcome := some false,
         timestamp := 7, feedback_timestamp := none, response_id := some "b" },
       { response_text := "c", confidence_score := 9 / 10, user_query := "q",
         model_used := "m", web_search_used := false, outcome := none,
         timestamp := 6, feedback_timestamp := none, response_id := some "c" },
       { response_text := "d", confidence_score := 1 / 10, user_query := "q",
         model_used := "m", web_search_used := false, outcome := some true,
         timestamp := -3, feedback_timestamp := none, response_id := some "d" }]
      0 =
    some (brierClaimMean
      [{ response_text := "a", confidence_score := 4 / 5, user_query := "q",
         model_used := "m", web_search_used := false, outcome := some true,
         timestamp := 5, feedback_timestamp := none, response_id := some "a" },
       { response_text := "b", confidence_score := 3 / 10, user_query := "q",
         model_used := "m", web_search_used := false, outcome := some false,
         timestamp := 7, feedback_timestamp := none, response_id := some "b" },
       { response_text := "c", confidence_score := 9 / 10, user_query := "q",
         model_used := "m", web_search_used := false, outcome := none,
         timestamp := 6, feedback_timestamp := none, response_id := some "c" },
       { response_text := "d", confidence_score := 1 / 10, user_query := "q",
         model_used := "m", web_search_used := false, outcome := some true,
         timestamp := -3, feedback_timestamp := none, response_id := some "d" }]
      0) :=
  c7_brier_is_mean _ 0 (by decide)

/-! ## Claims about validator normalization -/

/-- Replacing a present key in place yields the new value on lookup. -/
theorem getKey_map_set (fs : List (String × Json)) (k : String) (v : Json)
    (h : hasKey fs k = true) :
    getKey (fs.map fun p => if p.1 = k then (p.1, v) else p) k = some v := by
  induction fs with
  | nil => simp [hasKey, getKey] at h
  | cons p rest ih =>
    obtain ⟨k2, w⟩ := p
    simp only [List.map_cons]
    by_cases hp : k2 = k
    · rw [if_pos hp]
      simp [getKey, hp]
    · rw [if_neg hp]
      have h2 : hasKey rest k = true := by
        simp only [hasKey, getKey] at h
        rw [if_neg hp] at h
        exact h
      simp only [getKey]
      rw [if_neg hp]
      exact ih h2

/-- Replacing one key never changes which keys are present. -/
theorem hasKey_map_set (fs : List (String × Json)) (k : String) (v : Json)
    (k2 : String) :
    hasKey (fs.map fun p => if p.1 = k then (p.1, v) else p) k2 =
      hasKey fs k2 := by
  induction fs with
  | nil => rfl
  | cons p rest ih =>
    obtain ⟨ka, w⟩ := p
    simp only [List.map_cons]
    by_cases hp : ka = k
    · rw [if_pos hp]
      by_cases hp2 : ka = k2
      · simp [hasKey, getKey, hp2]
      · simp only [hasKey, getKey]
        rw [if_neg hp2, if_neg hp2]
        exact ih
    · rw [if_neg hp]
      by_cases hp2 : ka = k2
      · simp [hasKey, getKey, hp2]
      · simp only [hasKey, getKey]
        rw [if_neg hp2, if_neg hp2]
        exact ih

/-- Lookup of a key found on the left is unchanged by appending. -/
theorem getKey_append_of_found (fs l : List (String × Json)) (k : String)
    (w : Json) (h : getKey fs k = some w) :
    getKey (fs ++ l) k = some w := by
  induction fs with
  | nil => simp [getKey] at h
  | cons p rest ih =>
    obtain ⟨k2, u⟩ := p
    simp only [getKey] at h
    simp only [List.cons_append, getKey]
    by_cases hp : k2 = k
    · rw [if_pos hp] at h ⊢
      exact h
    · rw [if_neg hp] at h ⊢
      exact ih h

/-- Appending a fresh key makes it present. -/
theorem getKey_append_single (fs : List (String × Json)) (k : String)
    (v : Json) (h : hasKey fs k = false) :
    getKey (fs ++ [(k, v)]) k = some v := by
  induction fs with
  | nil => simp [getKey]
  | cons p rest ih =>
    obtain ⟨k2, u⟩ := p
    simp only [hasKey, getKey] at h
    simp only [List.cons_append, getKey]
    by_cases hp : k2 = k
    · rw [if_pos hp] at h
      simp at h
    · rw [if_neg hp] at h ⊢
      exact ih h

/-- The key written by `setKey` is present afterwards. -/
theorem hasKey_setKey_self (fs : List (String × Json)) (k : String)
    (v : Json) : hasKey (setKey fs k v) k = true := by
  unfold setKey
  by_cases h : hasKey fs k = true
  · rw [if_pos h]
    simp [hasKey, getKey_map_set fs k v h]
  · rw [if_neg h]
    have h2 : hasKey fs k = false := by simpa using h
    simp [hasKey, getKey_append_single fs k v h2]

/-- Keys present before a `setKey` stay present. -/
theorem hasKey_setKey_mono (fs : List (String × Json)) (k : String)
    (v : Json) (k2 : String) (h : hasKey fs k2 = true) :
    hasKey (setKey fs k v) k2 = true := by
  unfold setKey
  by_cases hc : hasKey fs k = true
  · rw [if_pos hc, hasKey_map_set]
    exact h
  · rw [if_neg hc]
    simp only [hasKey] at h ⊢
    obtain ⟨w, hw⟩ := Option.isSome_iff_exists.mp h
    rw [getKey_append_of_found fs [(k, v)] k2 w hw]
    rfl

/-- `ensureKey` leaves records that already have the key untouched. -/
theorem ensureKey_of_hasKey (fs : List (String × Json)) (k : String)
    (d : List (String × Json) → Json) (h : hasKey fs k = true) :
    ensureKey fs k d = fs := by
  simp [ensureKey, h]

/-- `ensureKey` guarantees its key. -/
theorem hasKey_ensureKey_self (fs : List (String × Json)) (k : String)
    (d : List (String × Json) → Json) :
    hasKey (ensureKey fs k d) k = true := by
  unfold ensureKey
  by_cases h : hasKey fs k = true
  · rw [if_pos h]; exact h
  · rw [if_neg h]; exact hasKey_setKey_self fs k (d fs)

/-- `ensureKey` preserves keys that were already present. -/
theorem hasKey_ensureKey_mono (fs : List (String × Json)) (k : String)
    (d : List (String × Json) → Json) (k2 : String)
    (h : hasKey fs k2 = true) : hasKey (ensureKey fs k d) k2 = true := by
  unfold ensureKey
  by_cases hc : hasKey fs k = true
  · rw [if_pos hc]; exact h
  · rw [if_neg hc]; exact hasKey_setKey_mono fs k (d fs) k2 h

/-- After `_transform_json_format`, all five schema fields are present. -/
theorem transform_hasKeys (fs : List (String × Json)) :
    hasKey (transformJsonFormat fs) "main_advice" = true ∧
    hasKey (transformJsonFormat fs) "confidence_score" = true ∧
    hasKey (transformJsonFormat fs) "reasoning" = true ∧
    hasKey (transformJsonFormat fs) "alternatives" = true ∧
    hasKey (transformJsonFormat fs) "model_identifier" = true := by
  unfold transformJsonFormat
  refine ⟨?_, ?_, ?_, ?_, ?_⟩
  · exact hasKey_ensureKey_mono _ _ _ _ (hasKey_ensureKey_mono _ _ _ _
      (hasKey_ensureKey_mono _ _ _ _ (hasKey_ensureKey_mono _ _ _ _
        (hasKey_ensureKey_self _ _ _))))
  · exact hasKey_ensureKey_mono _ _ _ _ (hasKey_ensureKey_mono _ _ _ _
      (hasKey_ensureKey_mono _ _ _ _ (hasKey_ensureKey_self _ _ _)))
  · exact hasKey_ensureKey_mono _ _ _ _ (hasKey_ensureKey_mono _ _ _ _
      (hasKey_ensureKey_self _ _ _))
  · exact hasKey_ensureKey_mono _ _ _ _ (hasKey_ensureKey_self _ _ _)
  · exact hasKey_ensureKey_self _ _ _

/-- C5 counterexample: the record with only `main_advice` satisfies the
response schema, yet the normalization step does not leave it unchanged —
it adds default values for the four optional fields. -/
theorem c5_schema_valid_not_fixed_point :
    responseSchemaValid [("main_advice", Json.str "ok")] = true ∧
    transformJsonFormat [("main_advice", Json.str "ok")] ≠
      [("main_advice", Json.str "ok")] := by
  refine ⟨rfl, fun h => ?_⟩
  have h5 : (transformJsonFormat [("main_advice", Json.str "ok")]).length = 5 := rfl
  rw [h] at h5
  simp at h5

/-- C5 amended: the normalization step is idempotent — a second
application changes nothing — and it is the identity precisely on records
that already carry all five schema fields; a schema-valid record missing
any optional field is extended with defaults rather than returned
unchanged. -/
theorem c5_transform_idempotent :
    (∀ fs : List (String × Json),
      hasKey fs "main_advice" = true →
      hasKey fs "confidence_score" = true →
      hasKey fs "reasoning" = true →
      hasKey fs "alternatives" = true →
      hasKey fs "model_identifier" = true →
      transformJsonFormat fs = fs) ∧
    (∀ fs : List (String × Json),
      transformJsonFormat (transformJsonFormat fs) = transformJsonFormat fs) := by
  have hid : ∀ fs : List (String × Json),
      hasKey fs "main_advice" = true →
      hasKey fs "confidence_score" = true →
      hasKey fs "reasoning" = true →
      hasKey fs "alternatives" = true →
      hasKey fs "model_identifier" = true →
      transformJsonFormat fs = fs := by
    intro fs h1 h2 h3 h4 h5
    simp only [transformJsonFormat]
    rw [ensureKey_of_hasKey _ _ _ h1, ensureKey_of_hasKey _ _ _ h2,
        ensureKey_of_hasKey _ _ _ h3, ensureKey_of_hasKey _ _ _ h4,
        ensureKey_of_hasKey _ _ _ h5]
  refine ⟨hid, fun fs => ?_⟩
  obtain ⟨h1, h2, h3, h4, h5⟩ := transform_hasKeys fs
  exact hid _ h1 h2 h3 h4 h5

/-- C5 amended witness: a fully-populated record is returned unchanged,
and re-normalizing a normalized minimal record changes nothing. -/
theorem c5_transform_idempotent_witness :
    transformJsonFormat
      [("main_advice", Json.str "ok"), ("confidence_score", Json.num (1 / 2)),
       ("reasoning", Json.str "r"), ("alternatives", Json.null),
       ("model_identifier", Json.str "m")] =
      [("main_advice", Json.str "ok"), ("confidence_score", Json.num (1 / 2)),
       ("reasoning", Json.str "r"), ("alternatives", Json.null),
       ("model_identifier", Json.str "m")] ∧
    transformJsonFormat (transformJsonFormat [("main_advice", Json.str "ok")]) =
      transformJsonFormat [("main_advice", Json.str "ok")] :=
  ⟨c5_transform_idempotent.1 _ rfl rfl rfl rfl rfl,
   c5_transform_idempotent.2 _⟩

/-! ## Claims about terminal finalization of unparseable text -/

/-- On text whose stripped form is non-empty and opens with neither a brace
nor a bracket, the repair path builds the fixed record around the first
200 characters of the stripped text. -/
theorem create_fallback_default_shape (s msg : String)
    (h2 : (pyStrip s.toList).isEmpty = false)
    (h3 : startsWithL (pyStrip s.toList) ['\x7b'] = false)
    (h4 : startsWithL (pyStrip s.toList) ['['] = false) :
    create_fallback_response s msg =
      [("main_advice", .str (String.mk ((pyStrip s.toList).take 200))),
       ("reasoning", .str ("Response validation failed: " ++ msg ++
         ". Please try rephrasing your question.")),
       ("confidence_score", .num (1 / 10)),
       ("alternatives", .null),
       ("model_identifier", .str "validation_fallback")] := by
  simp only [create_fallback_response]
  rw [h3]
  simp only [Bool.false_eq_true, if_false]
  rw [h2, h4]
  simp

/-- C4 amended: for every accumulated text that is not parseable as JSON
and whose stripped form is non-empty, at most 200 characters long, and
does not open with a brace or bracket, terminal finalization produces a
repaired record whose `main_advice` is the stripped text and whose
`confidence_score` is the fixed low default 0.1.  (The original claim
fails when the unparseable text opens with a brace or bracket — the
apology string is used instead — or exceeds 200 characters, where it is
truncated; surrounding whitespace is always stripped.) -/
theorem c4_unparseable_text_repair (m s : String)
    (h1 : jsonParse s = none)
    (h2 : (pyStrip s.toList).isEmpty = false)
    (h3 : startsWithL (pyStrip s.toList) ['\x7b'] = false)
    (h4 : startsWithL (pyStrip s.toList) ['['] = false)
    (h5 : (pyStrip s.toList).length ≤ 200) :
    mainAdviceOf (finalizeContent m s).1 = some (String.mk (pyStrip s.toList)) ∧
    confidenceOf (finalizeContent m s).1 = some (1 / 10) := by
  have hv1 : validateStreamingChunkComplete s =
      (false, some "Invalid JSON format: could not parse accumulated text") := by
    simp only [validateStreamingChunkComplete, validateJsonStr, h1]
    rw [h2]
    simp
  have htake : (pyStrip s.toList).take 200 = pyStrip s.toList :=
    List.take_of_length_le h5
  have hfb := create_fallback_default_shape s
    "Invalid JSON format: could not parse accumulated text" h2 h3 h4
  simp only [finalizeContent, hv1]
  simp only [Bool.not_false, if_true, Option.getD_some]
  rw [hfb, htake]
  constructor
  · simp [mainAdviceOf, getKey]
  · simp [confidenceOf, getKey]

/-- C4 witness: `finalize("just some prose, not json")` keeps the prose
verbatim as `main_advice` with confidence 0.1. -/
theorem c4_unparseable_text_repair_witness :
    mainAdviceOf (finalizeContent "gpt-4.1" "just some prose, not json").1 =
      some (String.mk (pyStrip "just some prose, not json".toList)) ∧
    confidenceOf (finalizeContent "gpt-4.1" "just some prose, not json").1 =
      some (1 / 10) :=
  c4_unparseable_text_repair "gpt-4.1" "just some prose, not json"
    (by rfl) (by rfl) (by rfl) (by rfl) (by decide)

/-- C4 counterexample: the accumulated text is non-empty and not
parseable as JSON, yet finalization does not keep it verbatim — because
it opens with a brace, `main_advice` becomes the apology string. -/
theorem c4_brace_prefix_gets_apology :
    jsonParse "\x7boops" = none ∧
    "\x7boops" ≠ "" ∧
    mainAdviceOf (finalizeContent "gpt-4.1" "\x7boops").1 =
      some "Sorry, I encountered an error generating a proper response." ∧
    "Sorry, I encountered an error generating a proper response." ≠ "\x7boops" := by
  refine ⟨rfl, by decide, rfl, by decide⟩

/-! ## Claim about the confidence-score range of finalized records -/

/-- C1 failing input: an upstream stream accumulating a JSON object whose
`confidence_score` is already present but out of range.  The transformation
step only rescales the alias fields it introduces; a present
`confidence_score` is never normalized, the schema check then fails, and
`create_fallback_response` copies the out-of-range value verbatim into the
repaired record, so the `final_json` of the terminal `response_complete`
event carries `confidence_score = 5.0`, violating `0.0 ≤ confidence_score
≤ 1.0`. -/
theorem c1_out_of_range_confidence_survives :
    (finalJsonOf (runStream (fun _ _ => .ok none) "gpt-4.1"
        [.outputTextDelta
           "\x7b\"main_advice\": \"ok\", \"confidence_score\": 5.0\x7d",
         .completed])).bind confidenceOf = some 5 ∧
    ¬((0 : ℚ) ≤ 5 ∧ (5 : ℚ) ≤ 1) := by
  constructor
  · rfl
  · norm_num

/-! ## Claims about the streaming event loop -/

/-- Legacy tool dispatch only ever emits non-terminal events. -/
theorem legacyDispatch_nonterminal (tools : ToolOracle) (n : String)
    (a : Json) : ∀ d ∈ legacyDispatch tools n a, isTerminalDown d = false := by
  intro d hd
  unfold legacyDispatch at hd
  rcases hr : routeTool tools n a with m | r <;> rw [hr] at hd
  · simp at hd
    subst hd
    rfl
  · rcases r with _ | j
    · simp at hd
    · by_cases ht : pyTruthy j = true <;> simp [ht] at hd
      rcases hd with h | h <;> subst h <;> rfl

/-- New-style tool dispatch only ever emits non-terminal events. -/
theorem newStyleDispatch_nonterminal (tools : ToolOracle)
    (name : Option String) (a : Json) :
    ∀ d ∈ newStyleDispatch tools name a, isTerminalDown d = false := by
  rcases name with _ | n
  · intro d hd
    simp [newStyleDispatch] at hd
  · have he : newStyleDispatch tools (some n) a =
        (match routeTool tools n a with
         | .ok (some r) =>
           [.toolResult n r,
            .statusUpdate "function_call_completed" (n ++ " completed.")]
         | .ok none => []
         | .error m => [.toolError n m]) := rfl
    intro d hd
    rw [he] at hd
    rcases hr : routeTool tools n a with m | r <;> rw [hr] at hd
    · simp at hd
      subst hd
      rfl
    · rcases r with _ | j
      · simp at hd
      · simp at hd
        rcases hd with h | h <;> subst h <;> rfl

/-- A breaking upstream event makes the loop body emit exactly one
terminal event and stop. -/
theorem step_break (tools : ToolOracle) (model : String) (e : UpEvent)
    (st : StreamState) (h : isBreakUp e = true) :
    ∃ t, step tools model e st = ([t], none) ∧ isTerminalDown t = true := by
  cases e
  case completed => exact ⟨_, rfl, rfl⟩
  case errorEvt m => exact ⟨_, rfl, rfl⟩
  case legacyFuncCallDone fc =>
    rcases fc with _ | ⟨n, astr⟩
    · simp [isBreakUp] at h
    · rcases astr with _ | s
      · simp [isBreakUp] at h
      · simp only [isBreakUp] at h
        have hp : jsonParse s = none := Option.isNone_iff_eq_none.mp h
        refine ⟨.errorD "UNEXPECTED_ERROR"
          "JSONDecodeError: legacy function call arguments", ?_, rfl⟩
        simp only [step, hp]
  all_goals simp [isBreakUp] at h

/-- A non-breaking upstream event makes the loop body emit only
non-terminal events and continue with some next state. -/
theorem step_cont (tools : ToolOracle) (model : String) (e : UpEvent)
    (st : StreamState) (h : isBreakUp e = false) :
    ∃ outs st2, step tools model e st = (outs, some st2) ∧
      ∀ d ∈ outs, isTerminalDown d = false := by
  cases e
  case completed => simp [isBreakUp] at h
  case errorEvt m => simp [isBreakUp] at h
  case legacyFuncCallDone fc =>
    rcases fc with _ | ⟨n, astr⟩
    · exact ⟨_, _, rfl, by simp⟩
    · rcases astr with _ | s
      · exact ⟨_, _, rfl, legacyDispatch_nonterminal tools n (.obj [])⟩
      · simp only [isBreakUp] at h
        rcases hj : jsonParse s with _ | a
        · rw [hj] at h
          simp at h
        · exact ⟨_, st, by simp only [step, hj],
            legacyDispatch_nonterminal tools n a⟩
  case createdWithId rid => exact ⟨_, _, rfl, by simp [isTerminalDown]⟩
  case created => exact ⟨_, _, rfl, by simp [isTerminalDown]⟩
  case webSearchSearching => exact ⟨_, _, rfl, by simp [isTerminalDown]⟩
  case outputTextDelta d => exact ⟨_, _, rfl, by simp [isTerminalDown]⟩
  case outputTextDone => exact ⟨_, _, rfl, by simp⟩
  case inProgress => exact ⟨_, _, rfl, by simp⟩
  case outputItemAdded it =>
    refine ⟨_, _, rfl, ?_⟩
    intro d hd
    revert hd
    split <;> intro hd <;> simp_all [isTerminalDown]
  case webSearchInProgress => exact ⟨_, _, rfl, by simp⟩
  case webSearchCompleted => exact ⟨_, _, rfl, by simp [isTerminalDown]⟩
  case funcCallName nm =>
    refine ⟨_, _, rfl, ?_⟩
    intro d hd
    revert hd
    split <;> intro hd <;> simp_all [isTerminalDown]
  case funcArgsDelta d => exact ⟨_, _, rfl, by simp⟩
  case funcArgsDone =>
    exact ⟨_, _, rfl, newStyleDispatch_nonterminal tools st.funcName _⟩
  case legacyFuncCall fc =>
    refine ⟨_, _, rfl, ?_⟩
    intro d hd
    revert hd
    split <;> intro hd <;> simp_all [isTerminalDown]
  case outputItemDone it =>
    refine ⟨_, _, rfl, ?_⟩
    intro d hd
    revert hd
    split <;> intro hd <;> simp_all [isTerminalDown]
  case contentPartAdded => exact ⟨_, _, rfl, by simp⟩
  case annotAdded t => exact ⟨_, _, rfl, by simp [isTerminalDown]⟩
  case contentPartDone => exact ⟨_, _, rfl, by simp⟩
  case unknownEvt ty => exact ⟨_, _, rfl, by simp [isTerminalDown]⟩

/-- A member of `(l1 ++ l2).dropLast` is in `l1` or in `l2.dropLast`. -/
theorem mem_dropLast_append {α : Type} {d : α} {l1 l2 : List α}
    (h : d ∈ (l1 ++ l2).dropLast) : d ∈ l1 ∨ d ∈ l2.dropLast := by
  by_cases h2 : l2 = []
  · subst h2
    rw [List.append_nil] at h
    exact Or.inl (List.mem_of_mem_dropLast h)
  · rw [List.dropLast_append_of_ne_nil l1 h2] at h
    exact List.mem_append.mp h

/-- Core invariant of the event loop: it emits exactly one terminal event
when the upstream sequence contains a breaking event and none otherwise,
and a terminal event can only sit in the last position. -/
theorem runLoop_terminal_spec (tools : ToolOracle) (model : String) :
    ∀ (evs : List UpEvent) (st : StreamState),
    (((runLoop tools model st evs).filter isTerminalDown).length =
      if evs.any isBreakUp then 1 else 0) ∧
    ∀ d ∈ (runLoop tools model st evs).dropLast, isTerminalDown d = false := by
  intro evs
  induction evs with
  | nil => intro st; simp [runLoop]
  | cons e rest ih =>
    intro st
    by_cases hb : isBreakUp e = true
    · obtain ⟨t, hstep, hterm⟩ := step_break tools model e st hb
      constructor
      · simp [runLoop, hstep, hb, hterm]
      · simp [runLoop, hstep]
    · have hb2 : isBreakUp e = false := by simpa using hb
      obtain ⟨outs, st2, hstep, houts⟩ := step_cont tools model e st hb2
      have ihs := ih st2
      have hfo : outs.filter isTerminalDown = [] := by
        rw [List.filter_eq_nil_iff]
        intro d hd
        simp [houts d hd]
      constructor
      · simp [runLoop, hstep, List.filter_append, hfo, hb2, ihs.1]
      · intro d hd
        simp only [runLoop, hstep] at hd
        rcases mem_dropLast_append hd with h1 | h1
        · exact houts d h1
        · exact ihs.2 d h1

/-- C2 counterexample: a non-empty upstream sequence that ends without a
Completion or Error event produces a downstream stream with no terminal
event at all — no error is synthesized, contradicting the claim that
exactly one of `response_complete`/`error` terminates every stream. -/
theorem c2_no_terminal_synthesized :
    runStream (fun _ _ => .ok none) "gpt-4.1" [.outputTextDelta "hi"] =
      [.textDelta "hi"] ∧
    (runStream (fun _ _ => .ok none) "gpt-4.1"
      [.outputTextDelta "hi"]).filter isTerminalDown = [] := by
  exact ⟨rfl, rfl⟩

/-- C2 amended: at most one of `response_complete`/`error` is emitted, and
only as the final downstream event.  Exactly one terminal event appears
precisely when the upstream sequence is empty (the `NO_EVENTS` error is
synthesized) or contains a breaking event (Completion, Error, or a legacy
tool-call completion whose arguments fail to parse); a non-empty upstream
sequence without such an event yields a stream with no terminal event. -/
theorem c2_terminal_characterization (tools : ToolOracle) (model : String)
    (evs : List UpEvent) :
    (((runStream tools model evs).filter isTerminalDown).length =
      if evs.isEmpty || evs.any isBreakUp then 1 else 0) ∧
    ∀ d ∈ (runStream tools model evs).dropLast, isTerminalDown d = false := by
  rcases evs with _ | ⟨e, rest⟩
  · constructor
    · rfl
    · intro d hd
      simp [runStream, runLoop] at hd
  · have h := runLoop_terminal_spec tools model (e :: rest) initState
    have hne : ((e :: rest : List UpEvent).isEmpty || (e :: rest).any isBreakUp)
        = (e :: rest).any isBreakUp := by simp
    constructor
    · rw [hne]
      simpa [runStream] using h.1
    · intro d hd
      simp only [runStream, List.isEmpty_cons, Bool.false_eq_true, if_false,
        List.append_nil] at hd
      exact h.2 d hd

/-- C6: tool failure is not stream failure.  Whenever the arguments of an
open tool call are complete and the dispatched call raises, the loop emits
a downstream `tool_error` event (a non-terminal kind), clears the open
tool-call name and argument buffer, and goes on to process all remaining
upstream events. -/
theorem c6_tool_error_continues (tools : ToolOracle) (model : String)
    (st : StreamState) (rest : List UpEvent) (n msg : String)
    (hn : st.funcName = some n)
    (hdisp : routeTool tools n
      ((jsonParse (if st.argsBuf == "" then "\x7b\x7d" else st.argsBuf)).getD
        (.obj [])) = .error msg) :
    runLoop tools model st (.funcArgsDone :: rest) =
      .toolError n msg ::
        runLoop tools model
          { st with funcName := none, argsBuf := "" } rest ∧
    isTerminalDown (.toolError n msg) = false := by
  constructor
  · simp only [runLoop, step, hn, newStyleDispatch, hdisp,
      List.singleton_append]
  · rfl

/-- C6 witness: a concrete state with an open `get_mlb_standings` call
whose execution raises; the loop emits the `tool_error` and still
processes the following text delta. -/
theorem c6_tool_error_continues_witness :
    runLoop (fun _ _ => .error "boom") "gpt-4.1"
      { accumulated := "", responseId := none,
        funcName := some "get_mlb_standings", argsBuf := "" }
      [.funcArgsDone, .outputTextDelta "x"] =
      .toolError "get_mlb_standings" "boom" ::
        runLoop (fun _ _ => .error "boom") "gpt-4.1"
          { accumulated := "", responseId := none, funcName := none,
            argsBuf := "" }
          [.outputTextDelta "x"] ∧
    isTerminalDown (.toolError "get_mlb_standings" "boom") = false :=
  c6_tool_error_continues (fun _ _ => .error "boom") "gpt-4.1"
    { accumulated := "", responseId := none,
      funcName := some "get_mlb_standings", argsBuf := "" }
    [.outputTextDelta "x"] "get_mlb_standings" "boom" rfl rfl

/-- C2 witness: instantiation of the terminal characterization on a
stream that accumulates one delta and completes. -/
theorem c2_terminal_characterization_witness :
    (((runStream (fun _ _ => .ok none) "gpt-4.1"
        [.outputTextDelta "hi", .completed]).filter isTerminalDown).length =
      if ([UpEvent.outputTextDelta "hi", UpEvent.completed]).isEmpty ||
          ([UpEvent.outputTextDelta "hi", UpEvent.completed]).any isBreakUp
      then 1 else 0) ∧
    ∀ d ∈ (runStream (fun _ _ => .ok none) "gpt-4.1"
        [.outputTextDelta "hi", .completed]).dropLast,
      isTerminalDown d = false :=
  c2_terminal_characterization (fun _ _ => .ok none) "gpt-4.1"
    [.outputTextDelta "hi", .completed]
